import Mathlib

/-!
Verification of the tool-augmented structured-extraction scripts
(`pydantic_ai_tutorials`): the typed output schemas and rendering glue
that live in the scripts themselves, and the `StructuredAgentRunner`
turn loop that the specification describes.

Conventions: Python floats are embedded as `ℚ`; Python `Optional[T]`
becomes `Option T`; machine-level concerns do not arise in this code.
-/

/-- Scalar JSON-like values appearing in a model's final answer
(the payloads pydantic validates field by field). -/
inductive JValue where
  | str (s : String)
  | int (n : Int)
  | num (q : ℚ)
  | null
deriving DecidableEq, Repr

/-- A final-answer object: named fields with scalar values. -/
abbrev Obj : Type := List (String × JValue)

/-- Field types a schema can demand (`str`, `int`, `float` in pydantic). -/
inductive FieldType where
  | string
  | integer
  | float
deriving DecidableEq, Repr

/-- One named, typed field of an output schema, with optional numeric
range constraints (pydantic `Field(..., ge=lo, le=hi)`) and a
required/optional flag (`Optional[...] = None`). -/
structure FieldSpec where
  name : String
  type : FieldType
  required : Bool
  lo : Option ℚ := none
  hi : Option ℚ := none
deriving Repr

/-- Does a scalar value have the demanded type?  (pydantic accepts an
int where a float is demanded, coercing it.) -/
def typeOk : FieldType → JValue → Bool
  | .string, .str _ => true
  | .integer, .int _ => true
  | .float, .num _ => true
  | .float, .int _ => true
  | _, _ => false

/-- Numeric value of a scalar, used for range constraints. -/
def numVal : JValue → Option ℚ
  | .num q => some q
  | .int n => some (n : ℚ)
  | _ => none

/-- Does a value satisfy the optional lower/upper bounds? -/
def rangeOk (lo hi : Option ℚ) (v : JValue) : Bool :=
  match numVal v with
  | some q => lo.all (fun a => decide (a ≤ q)) && hi.all (fun b => decide (q ≤ b))
  | none => true

/-- Validate one field of an object against its spec: a missing or null
field is accepted only when the field is optional; otherwise the value
must have the demanded type and satisfy the bounds. -/
def checkField (o : Obj) (f : FieldSpec) : Bool :=
  match o.lookup f.name with
  | none => !f.required
  | some .null => !f.required
  | some v => typeOk f.type v && rangeOk f.lo f.hi v

/-- Validate an object field-by-field against a schema. -/
def validateObj (schema : List FieldSpec) (o : Obj) : Bool :=
  schema.all (checkField o)

/-- Validate a list-of-objects answer (`result_type=List[TouristPlace]`). -/
def validateAnswer (schema : List FieldSpec) (ans : List Obj) : Bool :=
  ans.all (validateObj schema)

/-- The `TouristPlace` schema of `01-1_pydantic_ai_simple_groq.py`:
`name : str`, `description : str`, `zip_code : int`,
`best_time_to_visit : str`, `entry_fee : Optional[float] = None`,
`rating : float = Field(..., ge=0.0, le=5.0)`. -/
def touristPlaceSchema : List FieldSpec :=
  [ { name := "name", type := .string, required := true },
    { name := "description", type := .string, required := true },
    { name := "zip_code", type := .integer, required := true },
    { name := "best_time_to_visit", type := .string, required := true },
    { name := "entry_fee", type := .float, required := false },
    { name := "rating", type := .float, required := true, lo := some 0, hi := some 5 } ]

/-- Calendar date, as Python's `datetime.date` (year, month 1..12, day). -/
structure Date where
  year : Nat
  month : Nat
  day : Nat
deriving DecidableEq, Repr

/-- Full English month name, as Python's `strftime("%B")`. -/
def monthName : Nat → String
  | 1 => "January"
  | 2 => "February"
  | 3 => "March"
  | 4 => "April"
  | 5 => "May"
  | 6 => "June"
  | 7 => "July"
  | 8 => "August"
  | 9 => "September"
  | 10 => "October"
  | 11 => "November"
  | 12 => "December"
  | _ => "InvalidMonth"

/-- `TravelPreferences` dependency bundle of
`02-1_pydantic_ai_using_dependency_system_prompt.py`. -/
structure TravelPreferences where
  location_type : Option String := none
  num_places : Nat := 5
  current_date : Date
deriving Repr

/-- Python's `x or default` for an optional string: falls back on `None`
and on the empty (falsy) string. -/
def orDefault (x : Option String) (d : String) : String :=
  match x with
  | none => d
  | some s => if s = "" then d else s

/-- `generate_system_prompt` of
`02-1_pydantic_ai_using_dependency_system_prompt.py`: the dynamic system
instruction embedding the specialization, current month and place limit. -/
def generate_system_prompt (deps : TravelPreferences) : String :=
  "You are an AI-powered travel guide specializing in "
    ++ orDefault deps.location_type "all types of locations"
    ++ ".\n"
    ++ "The current month is " ++ monthName deps.current_date.month ++ ".\n"
    ++ "Recommend the best tourist places to visit this month, considering seasonality.\n"
    ++ "Provide structured tourist recommendations, limited to "
    ++ toString deps.num_places ++ " places."

/-- Round a rational to the nearest integer, ties to even — the rounding
Python's fixed-point float formatting performs. -/
def roundHalfEven (q : ℚ) : ℤ :=
  let f : ℤ := ⌊q⌋
  let frac : ℚ := q - f
  if frac < 1/2 then f
  else if 1/2 < frac then f + 1
  else if f % 2 = 0 then f else f + 1

/-- Zero-padded two-digit rendering of the cents part. -/
def pad2 (c : Nat) : String :=
  (if c < 10 then "0" else "") ++ toString c

/-- Two-decimal fixed-point rendering of a rational: Python's
`f"{x:.2f}"` with the float read as its exact rational value. -/
def formatFixed2 (q : ℚ) : String :=
  let n : ℤ := roundHalfEven (q * 100)
  let sign : String := if q < 0 then "-" else ""
  let m : Nat := n.natAbs
  sign ++ toString (m / 100) ++ "." ++ pad2 (m % 100)

/-- The Entry Fee table cell of `01-1_pydantic_ai_simple_groq.py` and
`02-1_pydantic_ai_using_dependency_system_prompt.py`:
`"Free" if place.entry_fee is None else f"${place.entry_fee:.2f}"`. -/
def entryFeeCell (entry_fee : Option ℚ) : String :=
  match entry_fee with
  | none => "Free"
  | some q => "$" ++ formatFixed2 q

/-- What one iteration of the interactive scripts' prompt loop does with
the entered city string. -/
inductive LoopAction where
  | quit
  | runAgent (query : String)
deriving DecidableEq, Repr

/-- Python's `str.lower()` (character-wise lowercasing), as applied to
the entered city name. -/
def strLower (s : String) : String :=
  ⟨s.data.map Char.toLower⟩

/-- One iteration of the `__main__` loop of the Day 2 scripts: lowercase
the input; quit on `"q"`, otherwise run the agent on the lowercased city. -/
def loopStep (input : String) : LoopAction :=
  let city_name := strLower input
  if city_name = "q" then .quit else .runAgent city_name

/-- Modelled from the spec: the opaque dependency bundle (`deps`) the
scripts pass to tools — current date plus the optional API keys the
repository's tools require (`WeatherDeps`, `Deps`). -/
structure DepBundle where
  currentDate : Date
  weatherstackApiKey : Option String := none
  alphaVantageApiKey : Option String := none
deriving Repr

/-- A tool call proposed by the model: tool name and resolved arguments. -/
structure ToolCall where
  name : String
  args : List JValue
deriving DecidableEq, Repr

/-- Modelled from the spec: one model completion — either an ordered
list of proposed tool calls or a final-answer payload. -/
inductive Completion where
  | toolCalls (calls : List ToolCall)
  | finalAnswer (ans : List Obj)
deriving DecidableEq, Repr

/-- Modelled from the spec: a declared tool — name, parameter-schema
check, dependency-requirement check, and an invocation function.  The
invocation function is indexed by the attempt number so that flaky or
always-failing backends are expressible. -/
structure ToolDescriptor where
  name : String
  description : String := ""
  paramsOk : List JValue → Bool
  depsSatisfied : DepBundle → Bool
  invoke : List JValue → DepBundle → Nat → Except String JValue

/-- Modelled from the spec: one entry of the ConversationState. -/
inductive Message where
  | system (s : String)
  | user (s : String)
  | assistantToolCalls (calls : List ToolCall)
  | toolResult (toolName : String) (r : Except String JValue)
  | assistantAnswer (ans : List Obj)
  | corrective (e : String)

/-- One invocation attempt of a tool backend (an externally visible
side effect: an HTTP request in the scripts). -/
structure Attempt where
  toolName : String
  args : List JValue
  idx : Nat
deriving DecidableEq, Repr

/-- Modelled from the spec: the caller-visible error taxonomy members
that terminate a run. -/
inductive RunError where
  | unknownTool (name : String)
  | invalidArguments (name : String)
  | missingDependency (name : String)
  | schemaValidation
  | turnBudgetExceeded
deriving DecidableEq, Repr

/-- Modelled from the spec: the validated final output plus usage
metadata (model round-trips consumed). -/
structure StructuredResult where
  answer : List Obj
  turnsUsed : Nat
deriving DecidableEq, Repr

/-- The outcome of a run: the caller-visible result, the final
conversation state, the trace of invocation attempts (side effects),
and the number of model round-trips performed. -/
structure RunOutcome where
  result : Except RunError StructuredResult
  conv : List Message
  attempts : List Attempt
  turns : Nat

/-- Turn budget and per-tool retry budget (`limits`). -/
structure Limits where
  maxTurns : Nat
  maxRetriesPerTool : Nat
deriving DecidableEq, Repr

/-- The messages and attempts produced by one turn's tool calls, plus
the fatal error, if any, that aborts the run. -/
structure TurnExec where
  msgs : List Message
  attempts : List Attempt
  fatal : Option RunError

namespace StructuredAgentRunner

/-- Modelled from the spec: invoke a tool, retrying with the same
arguments; `i` is the index of the next attempt and the second argument
is the number of attempts still allowed (at least 1 when called). -/
def invokeLoop (td : ToolDescriptor) (args : List JValue) (deps : DepBundle) :
    Nat → Nat → List Attempt × Except String JValue
  | _, 0 => ([], .error "no attempts allowed")
  | i, Nat.succ rem =>
    let a : Attempt := ⟨td.name, args, i⟩
    match td.invoke args deps i with
    | .ok v => ([a], .ok v)
    | .error e =>
      if rem = 0 then ([a], .error e)
      else
        let p := invokeLoop td args deps (i + 1) rem
        (a :: p.1, p.2)

/-- Modelled from the spec: invoke with up to `maxRetries` retries after
the first attempt — `maxRetries + 1` attempts in all. -/
def invokeWithRetries (td : ToolDescriptor) (args : List JValue) (deps : DepBundle)
    (maxRetries : Nat) : List Attempt × Except String JValue :=
  invokeLoop td args deps 0 (maxRetries + 1)

/-- Modelled from the spec: execute one turn's proposed tool calls in
list order.  Each call's name is looked up in the closed tool registry
(`UnknownToolError` if absent), its arguments are validated
(`InvalidArgumentsError`), its required dependencies are checked before
any invocation (`MissingDependencyError`), and an invocation that fails
every retry is surfaced into the conversation as a tool-result error
message rather than aborting the run. -/
def execCalls (tools : List ToolDescriptor) (deps : DepBundle) (maxRetries : Nat) :
    List ToolCall → TurnExec
  | [] => ⟨[], [], none⟩
  | c :: rest =>
    match tools.find? (fun td => td.name == c.name) with
    | none => ⟨[], [], some (.unknownTool c.name)⟩
    | some td =>
      if td.paramsOk c.args = false then ⟨[], [], some (.invalidArguments c.name)⟩
      else if td.depsSatisfied deps = false then ⟨[], [], some (.missingDependency c.name)⟩
      else
        let p := invokeWithRetries td c.args deps maxRetries
        let r := execCalls tools deps maxRetries rest
        ⟨.toolResult c.name p.2 :: r.msgs, p.1 ++ r.attempts, r.fatal⟩

/-- Modelled from the spec: the bounded turn loop.  `turnIdx` counts the
model round-trips already consumed, `corrUsed` records whether the one
corrective round for a schema-validation failure has been spent, and the
final `Nat` is the remaining turn budget. -/
def runLoop (model : Nat → Completion) (schema : List FieldSpec)
    (tools : List ToolDescriptor) (deps : DepBundle) (maxRetries : Nat) :
    Nat → Bool → List Message → List Attempt → Nat → RunOutcome
  | turnIdx, _, conv, atts, 0 => ⟨.error .turnBudgetExceeded, conv, atts, turnIdx⟩
  | turnIdx, corrUsed, conv, atts, Nat.succ rem =>
    match model turnIdx with
    | .toolCalls calls =>
      let r := execCalls tools deps maxRetries calls
      match r.fatal with
      | some e =>
        ⟨.error e, conv ++ [.assistantToolCalls calls] ++ r.msgs, atts ++ r.attempts, turnIdx + 1⟩
      | none =>
        runLoop model schema tools deps maxRetries (turnIdx + 1) corrUsed
          (conv ++ [.assistantToolCalls calls] ++ r.msgs) (atts ++ r.attempts) rem
    | .finalAnswer ans =>
      if validateAnswer schema ans then
        ⟨.ok ⟨ans, turnIdx + 1⟩, conv ++ [.assistantAnswer ans], atts, turnIdx + 1⟩
      else if corrUsed then
        ⟨.error .schemaValidation, conv ++ [.assistantAnswer ans], atts, turnIdx + 1⟩
      else if rem = 0 then
        ⟨.error .turnBudgetExceeded, conv ++ [.assistantAnswer ans], atts, turnIdx + 1⟩
      else
        runLoop model schema tools deps maxRetries (turnIdx + 1) true
          (conv ++ [.assistantAnswer ans, .corrective "SchemaValidationError"]) atts rem

/-- Modelled from the spec: `run(task, schema, tools, deps, limits)` —
initialize the conversation with the system instruction and user task,
then drive the turn loop against the model endpoint. -/
def run (sysPrompt task : String) (schema : List FieldSpec)
    (tools : List ToolDescriptor) (deps : DepBundle) (limits : Limits)
    (model : Nat → Completion) : RunOutcome :=
  runLoop model schema tools deps limits.maxRetriesPerTool 0 false
    [.system sysPrompt, .user task] [] limits.maxTurns

end StructuredAgentRunner

/-! ## Substring occurrence -/

/-- `t` occurs as a contiguous substring of `s`. -/
def containsStr (s t : String) : Prop :=
  ∃ a b : List Char, s.data = a ++ t.data ++ b

lemma containsStr_intro (s t a b : String) (h : s = a ++ (t ++ b)) :
    containsStr s t := by
  refine ⟨a.data, b.data, ?_⟩
  subst h
  simp only [String.data_append, List.append_assoc]

lemma containsStr_intro_head (s t b : String) (h : s = t ++ b) :
    containsStr s t := by
  refine ⟨[], b.data, ?_⟩
  subst h
  simp only [String.data_append, List.append_assoc, List.nil_append]

lemma pad2_length_two : ∀ c, c < 100 → (pad2 c).length = 2 := by decide

/-- C8: for every `TravelPreferences` bundle, the system instruction
computed by `generate_system_prompt` contains the full English month
name of `current_date`, states `num_places` as the limit on recommended
places, names `location_type` as the specialization when it is set and
nonempty, and falls back to the phrase `all types of locations` when
`location_type` is `None` or empty. -/
theorem generate_system_prompt_contents (deps : TravelPreferences) :
    containsStr (generate_system_prompt deps) (monthName deps.current_date.month)
    ∧ containsStr (generate_system_prompt deps)
        ("Provide structured tourist recommendations, limited to "
          ++ toString deps.num_places)
    ∧ (∀ l, deps.location_type = some l → l ≠ "" →
        containsStr (generate_system_prompt deps)
          ("You are an AI-powered travel guide specializing in " ++ l ++ ".\n"))
    ∧ ((deps.location_type = none ∨ deps.location_type = some "") →
        containsStr (generate_system_prompt deps) "all types of locations") := by
  refine ⟨?_, ?_, ?_, ?_⟩
  · exact containsStr_intro _ _
      ("You are an AI-powered travel guide specializing in "
        ++ orDefault deps.location_type "all types of locations"
        ++ ".\n" ++ "The current month is ")
      (".\n"
        ++ "Recommend the best tourist places to visit this month, considering seasonality.\n"
        ++ "Provide structured tourist recommendations, limited to "
        ++ toString deps.num_places ++ " places.")
      (by simp only [generate_system_prompt, String.append_assoc])
  · exact containsStr_intro _ _
      ("You are an AI-powered travel guide specializing in "
        ++ orDefault deps.location_type "all types of locations"
        ++ ".\n" ++ "The current month is "
        ++ monthName deps.current_date.month ++ ".\n"
        ++ "Recommend the best tourist places to visit this month, considering seasonality.\n")
      " places."
      (by simp only [generate_system_prompt, String.append_assoc])
  · intro l hl hne
    have hspec : orDefault deps.location_type "all types of locations" = l := by
      rw [hl]
      simp [orDefault, hne]
    exact containsStr_intro_head _ _
      ("The current month is "
        ++ monthName deps.current_date.month ++ ".\n"
        ++ "Recommend the best tourist places to visit this month, considering seasonality.\n"
        ++ "Provide structured tourist recommendations, limited to "
        ++ toString deps.num_places ++ " places.")
      (by simp only [generate_system_prompt, hspec, String.append_assoc])
  · intro h
    have hspec : orDefault deps.location_type "all types of locations"
        = "all types of locations" := by
      rcases h with h | h <;> rw [h] <;> rfl
    exact containsStr_intro _ _
      "You are an AI-powered travel guide specializing in "
      (".\n" ++ "The current month is "
        ++ monthName deps.current_date.month ++ ".\n"
        ++ "Recommend the best tourist places to visit this month, considering seasonality.\n"
        ++ "Provide structured tourist recommendations, limited to "
        ++ toString deps.num_places ++ " places.")
      (by simp only [generate_system_prompt, hspec, String.append_assoc])

/-- Witness for C8 at concrete preference bundles: museums, 3 places,
February 2025; and the fallback bundle with no location type. -/
theorem generate_system_prompt_contents_witness :
    containsStr (generate_system_prompt ⟨some "museums", 3, ⟨2025, 2, 23⟩⟩)
      ("You are an AI-powered travel guide specializing in " ++ "museums" ++ ".\n")
    ∧ containsStr (generate_system_prompt ⟨none, 5, ⟨2025, 2, 23⟩⟩)
      "all types of locations" := by
  refine ⟨?_, ?_⟩
  · exact (generate_system_prompt_contents ⟨some "museums", 3, ⟨2025, 2, 23⟩⟩).2.2.1
      "museums" rfl (by decide)
  · exact (generate_system_prompt_contents ⟨none, 5, ⟨2025, 2, 23⟩⟩).2.2.2 (Or.inl rfl)

/-- C9: the Entry Fee column is the literal `Free` exactly when
`entry_fee` is `None`; otherwise it is `$` followed by the fee rendered
with exactly two decimal places (and in particular never reads `Free`). -/
theorem entryFeeCell_free_iff :
    entryFeeCell none = "Free"
    ∧ ∀ q : ℚ,
        entryFeeCell (some q) = "$" ++ formatFixed2 q
        ∧ entryFeeCell (some q) ≠ "Free"
        ∧ ∃ pre c, c < 100
            ∧ formatFixed2 q = pre ++ "." ++ pad2 c
            ∧ (pad2 c).length = 2 := by
  refine ⟨rfl, fun q => ⟨rfl, ?_, ?_⟩⟩
  · intro h
    have h2 := congrArg String.data h
    simp only [entryFeeCell] at h2
    rw [String.data_append] at h2
    rw [show ("$" : String).data = ['$'] from rfl] at h2
    simp only [List.cons_append, List.nil_append] at h2
    injection h2 with h3 _
    exact absurd h3 (by decide)
  · refine ⟨(if q < 0 then "-" else "")
        ++ toString ((roundHalfEven (q * 100)).natAbs / 100),
      (roundHalfEven (q * 100)).natAbs % 100,
      Nat.mod_lt _ (by norm_num), rfl,
      pad2_length_two _ (Nat.mod_lt _ (by norm_num))⟩

/-- C10: an iteration of the prompt loop quits exactly when the
lowercased input is `q` (so `Q` quits too); any other input runs the
agent on the lowercased city, and the literal query `q` is never
submitted to the agent. -/
theorem loopStep_spec (s : String) :
    (loopStep s = .quit ↔ strLower s = "q")
    ∧ (strLower s ≠ "q" → loopStep s = .runAgent (strLower s))
    ∧ loopStep s ≠ .runAgent "q" := by
  by_cases h : strLower s = "q"
  · exact ⟨by simp [loopStep, h], fun hn => absurd h hn, by simp [loopStep, h]⟩
  · refine ⟨by simp [loopStep, h], fun _ => by simp [loopStep, h], ?_⟩
    simp only [loopStep, if_neg h, ne_eq, LoopAction.runAgent.injEq]
    exact h

/-- Witness for C10: `Q` quits, `Paris` runs the agent on `paris`, and
does not submit the literal `q`. -/
theorem loopStep_spec_witness :
    loopStep "Q" = .quit
    ∧ loopStep "Paris" = .runAgent "paris"
    ∧ loopStep "Paris" ≠ .runAgent "q" := by
  refine ⟨(loopStep_spec "Q").1.mpr (by decide), ?_, (loopStep_spec "Paris").2.2⟩
  exact ((loopStep_spec "Paris").2.1 (by decide)).trans (by decide)

/-- Witness for C9 at a concrete fee. -/
theorem entryFeeCell_free_iff_witness :
    entryFeeCell none = "Free"
    ∧ entryFeeCell (some 25) = "$" ++ formatFixed2 25
    ∧ entryFeeCell (some 25) ≠ "Free" :=
  ⟨entryFeeCell_free_iff.1, (entryFeeCell_free_iff.2 25).1,
    (entryFeeCell_free_iff.2 25).2.1⟩

/-! ## The runner returns only schema-valid results (C1) -/

lemma runLoop_ok_valid (model : Nat → Completion) (schema : List FieldSpec)
    (tools : List ToolDescriptor) (deps : DepBundle) (mr : Nat) :
    ∀ (fuel turnIdx : Nat) (corrUsed : Bool) (conv : List Message)
      (atts : List Attempt) (res : StructuredResult),
      (StructuredAgentRunner.runLoop model schema tools deps mr
          turnIdx corrUsed conv atts fuel).result = .ok res →
      validateAnswer schema res.answer = true := by
  intro fuel
  induction fuel with
  | zero =>
    intro turnIdx corrUsed conv atts res h
    simp [StructuredAgentRunner.runLoop] at h
  | succ rem ih =>
    intro turnIdx corrUsed conv atts res h
    cases hm : model turnIdx with
    | toolCalls calls =>
      simp only [StructuredAgentRunner.runLoop, hm] at h
      cases hf : (StructuredAgentRunner.execCalls tools deps mr calls).fatal with
      | some e =>
        simp only [hf] at h
        simp at h
      | none =>
        simp only [hf] at h
        exact ih _ _ _ _ _ h
    | finalAnswer ans =>
      simp only [StructuredAgentRunner.runLoop, hm] at h
      by_cases hv : validateAnswer schema ans = true
      · rw [if_pos hv] at h
        simp only [Except.ok.injEq] at h
        have h2 : StructuredResult.mk ans (turnIdx + 1) = res := by simpa using h
        subst h2
        exact hv
      · rw [if_neg hv] at h
        split at h
        · simp at h
        · split at h
          · simp at h
          · exact ih _ _ _ _ _ h

lemma checkField_string_required (o : Obj) (nm : String)
    (h : checkField o ⟨nm, .string, true, none, none⟩ = true) :
    ∃ s, o.lookup nm = some (.str s) := by
  cases hl : o.lookup nm with
  | none => simp [checkField, hl] at h
  | some v =>
    cases v with
    | str s => exact ⟨s, rfl⟩
    | int n => simp [checkField, hl, typeOk] at h
    | num q => simp [checkField, hl, typeOk] at h
    | null => simp [checkField, hl] at h

lemma checkField_int_required (o : Obj) (nm : String)
    (h : checkField o ⟨nm, .integer, true, none, none⟩ = true) :
    ∃ n, o.lookup nm = some (.int n) := by
  cases hl : o.lookup nm with
  | none => simp [checkField, hl] at h
  | some v =>
    cases v with
    | str s => simp [checkField, hl, typeOk] at h
    | int n => exact ⟨n, rfl⟩
    | num q => simp [checkField, hl, typeOk] at h
    | null => simp [checkField, hl] at h

lemma checkField_float_bounds (o : Obj) (nm : String) (lo hi : ℚ)
    (h : checkField o ⟨nm, .float, true, some lo, some hi⟩ = true) :
    ∃ q, (o.lookup nm).bind numVal = some q ∧ lo ≤ q ∧ q ≤ hi := by
  cases hl : o.lookup nm with
  | none => simp [checkField, hl] at h
  | some v =>
    cases v with
    | str s => simp [checkField, hl, typeOk] at h
    | null => simp [checkField, hl] at h
    | int n =>
      simp [checkField, hl, typeOk, rangeOk, numVal] at h
      exact ⟨(n : ℚ), rfl, h.1, h.2⟩
    | num q =>
      simp [checkField, hl, typeOk, rangeOk, numVal] at h
      exact ⟨q, rfl, h.1, h.2⟩

lemma checkField_optional_float (o : Obj) (nm : String)
    (h : checkField o ⟨nm, .float, false, none, none⟩ = true) :
    o.lookup nm = none ∨ o.lookup nm = some .null
      ∨ ∃ q, (o.lookup nm).bind numVal = some q := by
  cases hl : o.lookup nm with
  | none => exact Or.inl rfl
  | some v =>
    cases v with
    | null => exact Or.inr (Or.inl rfl)
    | str s => simp [checkField, hl, typeOk] at h
    | int n => exact Or.inr (Or.inr ⟨(n : ℚ), rfl⟩)
    | num q => exact Or.inr (Or.inr ⟨q, rfl⟩)

/-- The concrete per-place constraints of the `TouristPlace` schema. -/
def touristPlaceFacts (o : Obj) : Prop :=
  (∃ s, o.lookup "name" = some (.str s))
  ∧ (∃ s, o.lookup "description" = some (.str s))
  ∧ (∃ s, o.lookup "best_time_to_visit" = some (.str s))
  ∧ (∃ n, o.lookup "zip_code" = some (.int n))
  ∧ (o.lookup "entry_fee" = none ∨ o.lookup "entry_fee" = some .null
      ∨ ∃ q, (o.lookup "entry_fee").bind numVal = some q)
  ∧ (∃ q, (o.lookup "rating").bind numVal = some q ∧ 0 ≤ q ∧ q ≤ 5)

lemma validateObj_touristPlace (o : Obj)
    (h : validateObj touristPlaceSchema o = true) : touristPlaceFacts o := by
  simp only [validateObj, touristPlaceSchema, List.all_cons, List.all_nil,
    Bool.and_eq_true, and_true] at h
  obtain ⟨h1, h2, h3, h4, h5, h6⟩ := h
  exact ⟨checkField_string_required o "name" h1,
    checkField_string_required o "description" h2,
    checkField_string_required o "best_time_to_visit" h4,
    checkField_int_required o "zip_code" h3,
    checkField_optional_float o "entry_fee" h5,
    checkField_float_bounds o "rating" 0 5 h6⟩

/-- C1: every run that returns a result returns a `StructuredResult`
satisfying every constraint of the declared output schema; for the
`TouristPlace` schema this means each place has string `name`,
`description` and `best_time_to_visit` fields, an integer `zip_code`, an
absent-or-numeric `entry_fee`, and a `rating` within `[0, 5]`. -/
theorem run_result_satisfies_schema
    (sysPrompt task : String) (tools : List ToolDescriptor) (deps : DepBundle)
    (limits : Limits) (model : Nat → Completion) (res : StructuredResult)
    (h : (StructuredAgentRunner.run sysPrompt task touristPlaceSchema
        tools deps limits model).result = .ok res) :
    validateAnswer touristPlaceSchema res.answer = true
    ∧ ∀ o ∈ res.answer, touristPlaceFacts o := by
  have hv := runLoop_ok_valid model touristPlaceSchema tools deps
    limits.maxRetriesPerTool limits.maxTurns 0 false _ _ res h
  refine ⟨hv, fun o ho => validateObj_touristPlace o ?_⟩
  have hall : ∀ o ∈ res.answer, validateObj touristPlaceSchema o = true := by
    simpa [validateAnswer, List.all_eq_true] using hv
  exact hall o ho

/-- A schema-conforming place used to exercise the runner. -/
def sampleObj : Obj :=
  [("name", .str "Central Park"),
   ("description", .str "A large urban park"),
   ("zip_code", .int 10024),
   ("best_time_to_visit", .str "Spring"),
   ("entry_fee", .null),
   ("rating", .num 4)]

/-- A model script that immediately returns a conforming final answer. -/
def sampleModel : Nat → Completion := fun _ => .finalAnswer [sampleObj]

/-- Witness for C1: a concrete one-turn run returning `sampleObj`. -/
theorem run_result_satisfies_schema_witness :
    validateAnswer touristPlaceSchema [sampleObj] = true
    ∧ ∀ o ∈ [sampleObj], touristPlaceFacts o :=
  run_result_satisfies_schema "sys" "New York City" [] ⟨⟨2025, 10, 12⟩, none, none⟩
    ⟨1, 0⟩ sampleModel ⟨[sampleObj], 1⟩ rfl

/-! ## Schema validation failures: one corrective round (C2) -/

/-- Is a conversation entry the corrective feedback for a schema
validation failure? -/
def isCorrective : Message → Bool
  | .corrective _ => true
  | _ => false

/-- Number of corrective-feedback entries in a conversation. -/
def countCorrective (conv : List Message) : Nat :=
  conv.countP isCorrective

lemma countCorrective_append (a b : List Message) :
    countCorrective (a ++ b) = countCorrective a + countCorrective b :=
  List.countP_append _ _ _

lemma execCalls_msgs_no_corrective (tools : List ToolDescriptor) (deps : DepBundle)
    (mr : Nat) : ∀ calls,
    countCorrective (StructuredAgentRunner.execCalls tools deps mr calls).msgs = 0 := by
  intro calls
  induction calls with
  | nil => rfl
  | cons c rest ih =>
    simp only [StructuredAgentRunner.execCalls]
    cases hfind : List.find? (fun td => td.name == c.name) tools with
    | none => rfl
    | some td =>
      by_cases hp : td.paramsOk c.args = false
      · simp [hp, countCorrective]
      · by_cases hd : td.depsSatisfied deps = false
        · simp [hp, hd, countCorrective]
        · simp only [hp, hd, if_false, if_true, Bool.false_eq_true]
          simp only [countCorrective, List.countP_cons] at ih ⊢
          simp [isCorrective, ih]

lemma runLoop_corrective_bound (model : Nat → Completion) (schema : List FieldSpec)
    (tools : List ToolDescriptor) (deps : DepBundle) (mr : Nat) :
    ∀ (fuel turnIdx : Nat) (corrUsed : Bool) (conv : List Message) (atts : List Attempt),
      countCorrective (StructuredAgentRunner.runLoop model schema tools deps mr
          turnIdx corrUsed conv atts fuel).conv
        ≤ countCorrective conv + (if corrUsed then 0 else 1) := by
  intro fuel
  induction fuel with
  | zero =>
    intro turnIdx corrUsed conv atts
    exact Nat.le_add_right _ _
  | succ rem ih =>
    intro turnIdx corrUsed conv atts
    cases hm : model turnIdx with
    | toolCalls calls =>
      simp only [StructuredAgentRunner.runLoop, hm]
      cases hf : (StructuredAgentRunner.execCalls tools deps mr calls).fatal with
      | some e =>
        simp only [hf]
        have h1 := execCalls_msgs_no_corrective tools deps mr calls
        simp only [countCorrective_append, h1]
        simp [countCorrective, isCorrective]
      | none =>
        simp only [hf]
        refine le_trans (ih _ _ _ _) ?_
        have h1 := execCalls_msgs_no_corrective tools deps mr calls
        simp only [countCorrective_append, h1]
        simp [countCorrective, isCorrective]
    | finalAnswer ans =>
      simp only [StructuredAgentRunner.runLoop, hm]
      by_cases hv : validateAnswer schema ans = true
      · rw [if_pos hv]
        simp only [countCorrective_append]
        simp [countCorrective, isCorrective]
      · rw [if_neg hv]
        cases corrUsed with
        | true =>
          simp only [if_pos rfl]
          simp [countCorrective_append, countCorrective, isCorrective]
        | false =>
          simp only [Bool.false_eq_true, if_false]
          by_cases hr : rem = 0
          · rw [if_pos hr]
            simp [countCorrective_append, countCorrective, isCorrective]
          · rw [if_neg hr]
            refine le_trans (ih _ _ _ _) ?_
            simp [countCorrective_append, countCorrective, isCorrective]

/-- C2: a final answer that fails schema validation is fed back into the
conversation as corrective feedback for exactly one additional turn: a
first failure with turns remaining silently continues with a corrective
message; a failure after the corrective round surfaces
`SchemaValidationError`; a first failure with no remaining turns
surfaces `TurnBudgetExceededError`; and no run ever accumulates more
than one corrective-feedback entry. -/
theorem schema_validation_corrective
    (model : Nat → Completion) (schema : List FieldSpec)
    (tools : List ToolDescriptor) (deps : DepBundle) (mr turnIdx : Nat)
    (conv : List Message) (atts : List Attempt) (ans : List Obj)
    (hm : model turnIdx = .finalAnswer ans)
    (hv : validateAnswer schema ans = false) :
    (∀ rem, StructuredAgentRunner.runLoop model schema tools deps mr
        turnIdx false conv atts (rem + 2)
      = StructuredAgentRunner.runLoop model schema tools deps mr (turnIdx + 1) true
          (conv ++ [.assistantAnswer ans, .corrective "SchemaValidationError"])
          atts (rem + 1))
    ∧ (∀ rem, (StructuredAgentRunner.runLoop model schema tools deps mr
        turnIdx true conv atts (rem + 1)).result = .error .schemaValidation)
    ∧ (StructuredAgentRunner.runLoop model schema tools deps mr
        turnIdx false conv atts 1).result = .error .turnBudgetExceeded
    ∧ ∀ sysPrompt task limits,
        countCorrective (StructuredAgentRunner.run sysPrompt task schema
          tools deps limits model).conv ≤ 1 := by
  refine ⟨?_, ?_, ?_, ?_⟩
  · intro rem
    show StructuredAgentRunner.runLoop model schema tools deps mr
        turnIdx false conv atts (Nat.succ (rem + 1)) = _
    simp [StructuredAgentRunner.runLoop, hm, hv]
  · intro rem
    show (StructuredAgentRunner.runLoop model schema tools deps mr
        turnIdx true conv atts (Nat.succ rem)).result = _
    simp [StructuredAgentRunner.runLoop, hm, hv]
  · show (StructuredAgentRunner.runLoop model schema tools deps mr
        turnIdx false conv atts (Nat.succ 0)).result = _
    simp [StructuredAgentRunner.runLoop, hm, hv]
  · intro sysPrompt task limits
    have h := runLoop_corrective_bound model schema tools deps
      limits.maxRetriesPerTool limits.maxTurns 0 false
      [.system sysPrompt, .user task] []
    simpa [countCorrective, isCorrective, StructuredAgentRunner.run] using h

/-- A place violating the rating bound of the `TouristPlace` schema. -/
def badObj : Obj :=
  [("name", .str "Nowhere"),
   ("description", .str "A made-up place"),
   ("zip_code", .int 1),
   ("best_time_to_visit", .str "Never"),
   ("entry_fee", .null),
   ("rating", .num 7)]

/-- A model script that always answers with the invalid place. -/
def badModel : Nat → Completion := fun _ => .finalAnswer [badObj]

/-- A dependency bundle with no API keys. -/
def sampleDeps : DepBundle := ⟨⟨2025, 10, 12⟩, none, none⟩

/-- Witness for C2: with the rating-7 answer, a spent corrective round
fails with `SchemaValidationError` and an exhausted budget fails with
`TurnBudgetExceededError`. -/
theorem schema_validation_corrective_witness :
    (StructuredAgentRunner.runLoop badModel touristPlaceSchema [] sampleDeps
      0 0 true [] [] 1).result = .error .schemaValidation
    ∧ (StructuredAgentRunner.runLoop badModel touristPlaceSchema [] sampleDeps
      0 0 false [] [] 1).result = .error .turnBudgetExceeded := by
  have h := schema_validation_corrective badModel touristPlaceSchema [] sampleDeps
    0 0 [] [] [badObj] rfl (by decide)
  exact ⟨h.2.1 0, h.2.2.1⟩

/-! ## Tool retries (C3) -/

lemma invokeLoop_all_fail (td : ToolDescriptor) (args : List JValue)
    (deps : DepBundle)
    (hfail : ∀ i, ∃ e, td.invoke args deps i = .error e) :
    ∀ n i,
      (StructuredAgentRunner.invokeLoop td args deps i (n + 1)).1.length = n + 1
      ∧ (∃ e, (StructuredAgentRunner.invokeLoop td args deps i (n + 1)).2 = .error e)
      ∧ ∀ a ∈ (StructuredAgentRunner.invokeLoop td args deps i (n + 1)).1,
          a.toolName = td.name ∧ a.args = args := by
  intro n
  induction n with
  | zero =>
    intro i
    obtain ⟨e, he⟩ := hfail i
    refine ⟨?_, ⟨e, ?_⟩, ?_⟩ <;>
      simp [StructuredAgentRunner.invokeLoop, he]
  | succ n ih =>
    intro i
    obtain ⟨e, he⟩ := hfail i
    have hrec := ih (i + 1)
    refine ⟨?_, ?_, ?_⟩
    · simp only [StructuredAgentRunner.invokeLoop, he, Nat.succ_ne_zero, if_false]
      simpa using hrec.1
    · simp only [StructuredAgentRunner.invokeLoop, he, Nat.succ_ne_zero, if_false]
      exact hrec.2.1
    · simp only [StructuredAgentRunner.invokeLoop, he, Nat.succ_ne_zero, if_false]
      intro a ha
      rcases List.mem_cons.mp ha with h | h
      · subst h
        exact ⟨rfl, rfl⟩
      · exact hrec.2.2 a h

/-- C3: a tool call whose backend fails on every attempt is invoked
exactly `maxRetries + 1` times, always with the same arguments; the
exhausted failure becomes a tool-result error message in the
conversation (visible to the model) and is not a fatal, caller-visible
error. -/
theorem tool_retry_exhaustion
    (tools : List ToolDescriptor) (deps : DepBundle) (mr : Nat) (c : ToolCall)
    (td : ToolDescriptor)
    (hfind : tools.find? (fun t => t.name == c.name) = some td)
    (hp : td.paramsOk c.args = true)
    (hd : td.depsSatisfied deps = true)
    (hfail : ∀ i, ∃ e, td.invoke c.args deps i = .error e) :
    (StructuredAgentRunner.execCalls tools deps mr [c]).attempts.length = mr + 1
    ∧ (∀ a ∈ (StructuredAgentRunner.execCalls tools deps mr [c]).attempts,
        a.toolName = td.name ∧ a.args = c.args)
    ∧ (∃ e, (StructuredAgentRunner.execCalls tools deps mr [c]).msgs
        = [.toolResult c.name (.error e)])
    ∧ (StructuredAgentRunner.execCalls tools deps mr [c]).fatal = none := by
  have hall := invokeLoop_all_fail td c.args deps hfail mr 0
  obtain ⟨e, he⟩ := hall.2.1
  simp only [StructuredAgentRunner.execCalls, hfind, hp, hd, Bool.true_eq_false,
    if_false, StructuredAgentRunner.invokeWithRetries]
  refine ⟨?_, ?_, ⟨e, ?_⟩, trivial⟩
  · simpa using hall.1
  · intro a ha
    simp only [List.append_nil] at ha
    exact hall.2.2 a ha
  · simp [he]

/-- A stock-ticker tool whose search backend always fails, exercising
the declarative `retries` budget of `03-1_pydantic_ai_using_tools.py`. -/
def failingTickerTool : ToolDescriptor :=
  { name := "get_stock_ticker_symbol"
    description := "Get Stock ticker symbol for a company"
    paramsOk := fun args => match args with | [.str _] => true | _ => false
    depsSatisfied := fun _ => true
    invoke := fun _ _ _ => .error "search backend unavailable" }

/-- The call the model proposes against `failingTickerTool`. -/
def tickerCall : ToolCall := ⟨"get_stock_ticker_symbol", [.str "Apple"]⟩

/-- Witness for C3: with `max_retries_per_tool = 2` and every attempt
failing, exactly 3 invocation attempts occur and the failure is not
fatal. -/
theorem tool_retry_exhaustion_witness :
    (StructuredAgentRunner.execCalls [failingTickerTool] sampleDeps 2
      [tickerCall]).attempts.length = 2 + 1
    ∧ (StructuredAgentRunner.execCalls [failingTickerTool] sampleDeps 2
        [tickerCall]).fatal = none := by
  have h := tool_retry_exhaustion [failingTickerTool] sampleDeps 2 tickerCall
    failingTickerTool rfl rfl rfl
    (fun i => ⟨"search backend unavailable", rfl⟩)
  exact ⟨h.1, h.2.2.2⟩

/-! ## Closed tool registry (C4) -/

lemma invokeLoop_names (td : ToolDescriptor) (args : List JValue)
    (deps : DepBundle) :
    ∀ n i, ∀ a ∈ (StructuredAgentRunner.invokeLoop td args deps i n).1,
      a.toolName = td.name := by
  intro n
  induction n with
  | zero =>
    intro i a ha
    simp [StructuredAgentRunner.invokeLoop] at ha
  | succ n ih =>
    intro i a ha
    cases hi : td.invoke args deps i with
    | ok v =>
      simp only [StructuredAgentRunner.invokeLoop, hi] at ha
      simp at ha
      subst ha
      rfl
    | error e =>
      cases n with
      | zero =>
        simp [StructuredAgentRunner.invokeLoop, hi] at ha
        subst ha
        rfl
      | succ m =>
        simp only [StructuredAgentRunner.invokeLoop, hi] at ha
        simp only [Nat.succ_ne_zero, if_false] at ha
        rcases List.mem_cons.mp ha with h | h
        · subst h
          rfl
        · exact ih (i + 1) a h

lemma execCalls_attempts_declared (tools : List ToolDescriptor) (deps : DepBundle)
    (mr : Nat) :
    ∀ calls, ∀ a ∈ (StructuredAgentRunner.execCalls tools deps mr calls).attempts,
      ∃ td, td ∈ tools ∧ td.name = a.toolName := by
  intro calls
  induction calls with
  | nil =>
    intro a ha
    simp [StructuredAgentRunner.execCalls] at ha
  | cons c rest ih =>
    intro a ha
    simp only [StructuredAgentRunner.execCalls] at ha
    cases hfind : List.find? (fun td => td.name == c.name) tools with
    | none =>
      rw [hfind] at ha
      simp at ha
    | some td =>
      rw [hfind] at ha
      by_cases hp : td.paramsOk c.args = false
      · simp [hp] at ha
      · by_cases hd : td.depsSatisfied deps = false
        · simp [hp, hd] at ha
        · simp only [hp, hd, if_false, Bool.false_eq_true] at ha
          rcases List.mem_append.mp ha with h | h
          · refine ⟨td, List.mem_of_find?_eq_some hfind, ?_⟩
            exact (invokeLoop_names td c.args deps _ _ a h).symm
          · exact ih a h

lemma runLoop_attempts_declared (model : Nat → Completion) (schema : List FieldSpec)
    (tools : List ToolDescriptor) (deps : DepBundle) (mr : Nat) :
    ∀ fuel turnIdx corrUsed conv atts,
      ∀ a ∈ (StructuredAgentRunner.runLoop model schema tools deps mr
          turnIdx corrUsed conv atts fuel).attempts,
        a ∈ atts ∨ ∃ td, td ∈ tools ∧ td.name = a.toolName := by
  intro fuel
  induction fuel with
  | zero =>
    intro turnIdx corrUsed conv atts a ha
    simp only [StructuredAgentRunner.runLoop] at ha
    exact Or.inl ha
  | succ rem ih =>
    intro turnIdx corrUsed conv atts a ha
    cases hm : model turnIdx with
    | toolCalls calls =>
      simp only [StructuredAgentRunner.runLoop, hm] at ha
      cases hf : (StructuredAgentRunner.execCalls tools deps mr calls).fatal with
      | some e =>
        simp only [hf] at ha
        rcases List.mem_append.mp ha with h | h
        · exact Or.inl h
        · exact Or.inr (execCalls_attempts_declared tools deps mr calls a h)
      | none =>
        simp only [hf] at ha
        rcases ih _ _ _ _ a ha with h | h
        · rcases List.mem_append.mp h with h2 | h2
          · exact Or.inl h2
          · exact Or.inr (execCalls_attempts_declared tools deps mr calls a h2)
        · exact Or.inr h
    | finalAnswer ans =>
      simp only [StructuredAgentRunner.runLoop, hm] at ha
      by_cases hv : validateAnswer schema ans = true
      · rw [if_pos hv] at ha
        exact Or.inl ha
      · rw [if_neg hv] at ha
        split at ha
        · exact Or.inl ha
        · split at ha
          · exact Or.inl ha
          · rcases ih _ _ _ _ a ha with h | h
            · exact Or.inl h
            · exact Or.inr h

/-- C4: a proposed call whose name is not in the declared tool set fails
with `UnknownToolError` and executes nothing (no invocation attempts);
and every invocation attempt a run ever performs references a declared
`ToolDescriptor` — dispatch is a name lookup in the closed registry. -/
theorem unknown_tool_rejected (tools : List ToolDescriptor) (deps : DepBundle)
    (mr : Nat) :
    (∀ c rest, tools.find? (fun td => td.name == c.name) = none →
      StructuredAgentRunner.execCalls tools deps mr (c :: rest)
        = ⟨[], [], some (.unknownTool c.name)⟩)
    ∧ ∀ sysPrompt task schema limits (model : Nat → Completion),
        ∀ a ∈ (StructuredAgentRunner.run sysPrompt task schema tools deps
            limits model).attempts,
          ∃ td, td ∈ tools ∧ td.name = a.toolName := by
  constructor
  · intro c rest h
    simp [StructuredAgentRunner.execCalls, h]
  · intro sysPrompt task schema limits model a ha
    rcases runLoop_attempts_declared model schema tools deps
      limits.maxRetriesPerTool limits.maxTurns 0 false
      [.system sysPrompt, .user task] [] a ha with h | h
    · simp at h
    · exact h

/-- A stock-ticker tool whose backend succeeds. -/
def okTickerTool : ToolDescriptor :=
  { name := "get_stock_ticker_symbol"
    description := "Get Stock ticker symbol for a company"
    paramsOk := fun args => match args with | [.str _] => true | _ => false
    depsSatisfied := fun _ => true
    invoke := fun _ _ _ => .ok (.str "AAPL") }

/-- A model script that proposes one tool call, then answers. -/
def toolModel : Nat → Completion :=
  fun k => if k = 0 then .toolCalls [tickerCall] else .finalAnswer [sampleObj]

/-- Witness for C4: an undeclared `evil_tool` call is rejected with
`UnknownToolError` and no attempts, while the attempt a real run makes
references the declared tool. -/
theorem unknown_tool_rejected_witness :
    StructuredAgentRunner.execCalls [okTickerTool] sampleDeps 0 [⟨"evil_tool", []⟩]
      = ⟨[], [], some (.unknownTool "evil_tool")⟩
    ∧ ∃ td, td ∈ [okTickerTool] ∧ td.name = "get_stock_ticker_symbol" := by
  have h := unknown_tool_rejected [okTickerTool] sampleDeps 0
  refine ⟨h.1 ⟨"evil_tool", []⟩ [] rfl, ?_⟩
  exact h.2 "sys" "task" touristPlaceSchema ⟨2, 0⟩ toolModel
    ⟨"get_stock_ticker_symbol", [.str "Apple"], 0⟩ (by decide)

/-! ## Missing dependencies are fatal and precede invocation (C5) -/

/-- C5: a call to a declared tool whose required dependency is absent
fails with `MissingDependencyError` before any invocation attempt (the
attempt trace is empty), and the error terminates the run at once —
the caller sees it, with no silent retry. -/
theorem missing_dependency_fatal
    (tools : List ToolDescriptor) (deps : DepBundle) (mr : Nat) (c : ToolCall)
    (td : ToolDescriptor) (rest : List ToolCall)
    (hfind : tools.find? (fun t => t.name == c.name) = some td)
    (hp : td.paramsOk c.args = true)
    (hd : td.depsSatisfied deps = false) :
    StructuredAgentRunner.execCalls tools deps mr (c :: rest)
      = ⟨[], [], some (.missingDependency c.name)⟩
    ∧ ∀ (model : Nat → Completion) (schema : List FieldSpec)
        (turnIdx : Nat) (corrUsed : Bool) (conv : List Message)
        (atts : List Attempt) (rem : Nat),
        model turnIdx = .toolCalls (c :: rest) →
        (StructuredAgentRunner.runLoop model schema tools deps mr
            turnIdx corrUsed conv atts (rem + 1)).result
          = .error (.missingDependency c.name) := by
  have h1 : StructuredAgentRunner.execCalls tools deps mr (c :: rest)
      = ⟨[], [], some (.missingDependency c.name)⟩ := by
    simp [StructuredAgentRunner.execCalls, hfind, hp, hd]
  refine ⟨h1, ?_⟩
  intro model schema turnIdx corrUsed conv atts rem hm
  show (StructuredAgentRunner.runLoop model schema tools deps mr
      turnIdx corrUsed conv atts (Nat.succ rem)).result = _
  simp only [StructuredAgentRunner.runLoop, hm, h1]

/-- Modelled from the spec: the `get_current_weather_details` tool of
`02-2_pydantic_ai_using_dependency_tools.py` — takes a city name,
requires the WeatherStack API key from the dependency bundle (the source
raises `UserError` when `ctx.deps.weatherstack_api_key is None`), and
otherwise queries the WeatherStack HTTP API (abstracted here as an
opaque successful JSON payload). -/
def get_current_weather_details_tool : ToolDescriptor :=
  { name := "get_current_weather_details"
    description := "Retrieve current weather details for the specified city."
    paramsOk := fun args => match args with | [.str _] => true | _ => false
    depsSatisfied := fun d => d.weatherstackApiKey.isSome
    invoke := fun _ _ _ => .ok (.str "weatherstack-json") }

/-- The weather call the model proposes. -/
def weatherCall : ToolCall := ⟨"get_current_weather_details", [.str "new york city"]⟩

/-- A model script that proposes the weather call on its first turn. -/
def weatherModel : Nat → Completion := fun _ => .toolCalls [weatherCall]

/-- Witness for C5: with `weatherstack_api_key = None`, the weather call
fails with `MissingDependencyError`, no invocation attempt occurs, and
the run terminates with that error. -/
theorem missing_dependency_fatal_witness :
    StructuredAgentRunner.execCalls [get_current_weather_details_tool] sampleDeps 2
      [weatherCall]
      = ⟨[], [], some (.missingDependency "get_current_weather_details")⟩
    ∧ (StructuredAgentRunner.runLoop weatherModel touristPlaceSchema
        [get_current_weather_details_tool] sampleDeps 2 0 false [] [] 1).result
      = .error (.missingDependency "get_current_weather_details") := by
  have h := missing_dependency_fatal [get_current_weather_details_tool] sampleDeps 2
    weatherCall get_current_weather_details_tool [] rfl rfl rfl
  exact ⟨h.1, h.2 weatherModel touristPlaceSchema 0 false [] [] 0 rfl⟩

/-! ## Turn budget (C6) -/

lemma runLoop_turns_le (model : Nat → Completion) (schema : List FieldSpec)
    (tools : List ToolDescriptor) (deps : DepBundle) (mr : Nat) :
    ∀ (fuel turnIdx : Nat) (corrUsed : Bool) (conv : List Message)
      (atts : List Attempt),
      (StructuredAgentRunner.runLoop model schema tools deps mr
          turnIdx corrUsed conv atts fuel).turns ≤ turnIdx + fuel := by
  intro fuel
  induction fuel with
  | zero =>
    intro turnIdx corrUsed conv atts
    simp [StructuredAgentRunner.runLoop]
  | succ rem ih =>
    intro turnIdx corrUsed conv atts
    cases hm : model turnIdx with
    | toolCalls calls =>
      simp only [StructuredAgentRunner.runLoop, hm]
      cases hf : (StructuredAgentRunner.execCalls tools deps mr calls).fatal with
      | some e =>
        simp only [hf]
        omega
      | none =>
        simp only [hf]
        have := ih (turnIdx + 1) corrUsed
          (conv ++ [.assistantToolCalls calls]
            ++ (StructuredAgentRunner.execCalls tools deps mr calls).msgs)
          (atts ++ (StructuredAgentRunner.execCalls tools deps mr calls).attempts)
        omega
    | finalAnswer ans =>
      simp only [StructuredAgentRunner.runLoop, hm]
      by_cases hv : validateAnswer schema ans = true
      · rw [if_pos hv]
        show turnIdx + 1 ≤ turnIdx + (rem + 1)
        omega
      · rw [if_neg hv]
        cases corrUsed with
        | true =>
          show turnIdx + 1 ≤ turnIdx + (rem + 1)
          omega
        | false =>
          by_cases hr : rem = 0
          · subst hr
            show turnIdx + 1 ≤ turnIdx + (0 + 1)
            omega
          · rw [if_neg hr]
            have := ih (turnIdx + 1) true
              (conv ++ [.assistantAnswer ans, .corrective "SchemaValidationError"]) atts
            show (StructuredAgentRunner.runLoop model schema tools deps mr
              (turnIdx + 1) true
              (conv ++ [.assistantAnswer ans, .corrective "SchemaValidationError"])
              atts rem).turns ≤ turnIdx + (rem + 1)
            omega

/-- C6: every run performs at most `max_turns` model round-trips, and
with `max_turns = 1` a first completion that proposes (non-fatal) tool
calls rather than a final answer terminates the request with
`TurnBudgetExceededError`. -/
theorem turn_budget_enforced
    (sysPrompt task : String) (schema : List FieldSpec)
    (tools : List ToolDescriptor) (deps : DepBundle) (model : Nat → Completion) :
    (∀ limits, (StructuredAgentRunner.run sysPrompt task schema tools deps
        limits model).turns ≤ limits.maxTurns)
    ∧ ∀ mr calls, model 0 = .toolCalls calls →
        (StructuredAgentRunner.execCalls tools deps mr calls).fatal = none →
        (StructuredAgentRunner.run sysPrompt task schema tools deps
            ⟨1, mr⟩ model).result = .error .turnBudgetExceeded := by
  constructor
  · intro limits
    have h := runLoop_turns_le model schema tools deps limits.maxRetriesPerTool
      limits.maxTurns 0 false [.system sysPrompt, .user task] []
    simpa [StructuredAgentRunner.run] using h
  · intro mr calls hm hf
    show (StructuredAgentRunner.runLoop model schema tools deps mr 0 false
      [.system sysPrompt, .user task] [] (Nat.succ 0)).result = _
    simp [StructuredAgentRunner.runLoop, hm, hf]

/-- Witness for C6 at `max_turns = 1` with a first-turn tool call. -/
theorem turn_budget_enforced_witness :
    (StructuredAgentRunner.run "sys" "task" touristPlaceSchema [okTickerTool]
      sampleDeps ⟨1, 0⟩ toolModel).turns ≤ 1
    ∧ (StructuredAgentRunner.run "sys" "task" touristPlaceSchema [okTickerTool]
        sampleDeps ⟨1, 0⟩ toolModel).result = .error .turnBudgetExceeded := by
  have h := turn_budget_enforced "sys" "task" touristPlaceSchema [okTickerTool]
    sampleDeps toolModel
  exact ⟨h.1 ⟨1, 0⟩, h.2 0 [tickerCall] rfl rfl⟩

/-! ## In-order sequential tool execution (C7) -/

/-- The block of invocation attempts one proposed call contributes. -/
def callAttempts (tools : List ToolDescriptor) (deps : DepBundle) (mr : Nat)
    (c : ToolCall) : List Attempt :=
  match tools.find? (fun td => td.name == c.name) with
  | none => []
  | some td => (StructuredAgentRunner.invokeWithRetries td c.args deps mr).1

lemma invokeLoop_ne_nil (td : ToolDescriptor) (args : List JValue)
    (deps : DepBundle) :
    ∀ n i, (StructuredAgentRunner.invokeLoop td args deps i (n + 1)).1 ≠ [] := by
  intro n i
  cases hi : td.invoke args deps i with
  | ok v => simp [StructuredAgentRunner.invokeLoop, hi]
  | error e =>
    cases n with
    | zero => simp [StructuredAgentRunner.invokeLoop, hi]
    | succ m => simp [StructuredAgentRunner.invokeLoop, hi]

/-- C7: when a turn's proposed tool calls all execute without a fatal
error, the invocation-attempt trace is exactly the concatenation, in
proposal order, of each call's attempt block; every block is nonempty
and contains only attempts of its own call, so the calls execute
strictly sequentially in the order the model proposed them, each
completing before the next starts. -/
theorem tools_execute_in_order (tools : List ToolDescriptor) (deps : DepBundle)
    (mr : Nat) :
    ∀ calls, (StructuredAgentRunner.execCalls tools deps mr calls).fatal = none →
      (StructuredAgentRunner.execCalls tools deps mr calls).attempts
        = calls.flatMap (callAttempts tools deps mr)
      ∧ (∀ c ∈ calls, callAttempts tools deps mr c ≠ [])
      ∧ (∀ c ∈ calls, ∀ a ∈ callAttempts tools deps mr c, a.toolName = c.name) := by
  intro calls
  induction calls with
  | nil =>
    intro _
    refine ⟨rfl, ?_, ?_⟩ <;> intro c hc <;> simp at hc
  | cons c rest ih =>
    intro h
    cases hfind : List.find? (fun td => td.name == c.name) tools with
    | none =>
      simp [StructuredAgentRunner.execCalls, hfind] at h
    | some td =>
      by_cases hp : td.paramsOk c.args = false
      · simp [StructuredAgentRunner.execCalls, hfind, hp] at h
      · by_cases hd : td.depsSatisfied deps = false
        · simp [StructuredAgentRunner.execCalls, hfind, hp, hd] at h
        · have hrest : (StructuredAgentRunner.execCalls tools deps mr rest).fatal
              = none := by
            simp only [StructuredAgentRunner.execCalls, hfind, hp, hd, if_false,
              Bool.false_eq_true] at h
            exact h
          obtain ⟨ih1, ih2, ih3⟩ := ih hrest
          have hblock : callAttempts tools deps mr c
              = (StructuredAgentRunner.invokeWithRetries td c.args deps mr).1 := by
            simp [callAttempts, hfind]
          have hname : td.name = c.name := by
            have := List.find?_some hfind
            simpa using this
          refine ⟨?_, ?_, ?_⟩
          · simp only [StructuredAgentRunner.execCalls, hfind, hp, hd, if_false,
              Bool.false_eq_true, List.flatMap_cons, hblock, ih1]
            rfl
          · intro c2 hc2
            rcases List.mem_cons.mp hc2 with hc2 | hc2
            · subst hc2
              rw [hblock]
              exact invokeLoop_ne_nil td c2.args deps mr 0
            · exact ih2 c2 hc2
          · intro c2 hc2 a ha
            rcases List.mem_cons.mp hc2 with hc2 | hc2
            · subst hc2
              rw [hblock] at ha
              rw [← hname]
              exact invokeLoop_names td c2.args deps (mr + 1) 0 a ha
            · exact ih3 c2 hc2 a ha

/-- A Yahoo-finance news tool whose backend succeeds. -/
def newsTool : ToolDescriptor :=
  { name := "get_latest_financial_news"
    description := "Fetch the current financial news of a given company"
    paramsOk := fun args => match args with | [.str _] => true | _ => false
    depsSatisfied := fun _ => true
    invoke := fun _ _ _ => .ok (.str "news") }

/-- The news call the model proposes after the ticker call. -/
def newsCall : ToolCall := ⟨"get_latest_financial_news", [.str "GOOG"]⟩

/-- Witness for C7: two calls proposed in order produce exactly their
two attempt blocks in proposal order. -/
theorem tools_execute_in_order_witness :
    (StructuredAgentRunner.execCalls [okTickerTool, newsTool] sampleDeps 0
      [tickerCall, newsCall]).attempts
      = [tickerCall, newsCall].flatMap (callAttempts [okTickerTool, newsTool] sampleDeps 0)
    ∧ callAttempts [okTickerTool, newsTool] sampleDeps 0 tickerCall ≠ [] :=
  ⟨(tools_execute_in_order [okTickerTool, newsTool] sampleDeps 0
      [tickerCall, newsCall] rfl).1,
    (tools_execute_in_order [okTickerTool, newsTool] sampleDeps 0
      [tickerCall, newsCall] rfl).2.1 tickerCall (by simp)⟩
